import Mathlib

/-!
# hexa_duty.cpp : the MAP-Elites evaluator of the hexapod experiment

A shallow embedding of `src/hexa_duty.cpp`: the configuration block `Params::ea`, the
fitness class `FitAdapt` (its `eval`, `_eval`, `dead`, `ctrl`), and, for the statements about
the archive, the grid the specification describes.

Numbers are rationals: a `double` or `float` of the program is the number it denotes.  The
one narrowing the source shows, `desc[i] = v[i]` from `std::vector<double>` into
`std::vector<float>` (lines 138, 155, 157-162), is the rounding `to_float`; storing a gene
into `std::vector<double> _ctrl` is at most a widening and is exact; `_value` is declared in
the `FIT_MAP` base, outside `src/`, and holds the covered distance as reported.  Reading a
vector past its end has no defined result in the program; the embedding reports it as
`EvalResult.undefined`.
-/

namespace HexaDuty

/-! ## `Params::ea` (lines 49-53) -/

namespace Params
namespace ea

/-- Line 50, `SFERES_CONST size_t behav_dim = 6;`. -/
def behav_dim : Nat := 6

/-- Line 51, `SFERES_ARRAY(size_t, behav_shape, 5, 5, 5, 5, 5, 5);`. -/
def behav_shape : List Nat := [5, 5, 5, 5, 5, 5]

/-- Line 52, `SFERES_CONST float epsilon = 0.05;`. -/
def epsilon : ℚ := 5 / 100

end ea
end Params

/-! ## The collaborators of `FitAdapt` -/

/-- Modelled from the spec: the phenotype `phen::Parameters<gen::Sampled<36>, ...>` is declared
outside `src/`; an individual is the ordered sequence of its parameter values. -/
structure Indiv where
  params : List ℚ
  deriving DecidableEq

/-- Number of genes of the individual. -/
def Indiv.size (indiv : Indiv) : Nat := indiv.params.length

/-- Modelled from the spec: `indiv.data(i)`, the `i`-th parameter value; there is none when `i`
is not an index of the genotype. -/
def Indiv.data (indiv : Indiv) (i : Nat) : Option ℚ := indiv.params[i]?

/-- Modelled from the spec: `hexapod_dart` is not under `src/`; what a finished simulation
reports is `simu.covered_distance()` and the vector that
`simu.get_descriptor<hexapod_dart::descriptors::DutyCycle>(v)` writes into `v`. -/
structure SimOutcome where
  covered_distance : ℚ
  duty_cycle : List ℚ
  deriving DecidableEq

/-- Modelled from the spec: the error result of the simulator interface, raised while the robot
is cloned or the simulation is built, run or read. -/
structure SimError where
  code : Nat
  deriving DecidableEq

/-- Modelled from the spec: the simulator (`global_robot->clone()`, `HexapodDARTSimu`,
`run(5)`, and the two getters) is an external collaborator, a deterministic function of the
controller vector that either reports an outcome or fails.  A failure is placed at the
simulation call of lines 131-134, before any of its results is stored. -/
abbrev Simu := List ℚ → Except SimError SimOutcome

/-! ## `FitAdapt` (lines 94-167) -/

/-- The fields of a `FitAdapt` object: `_value`, `_objs` and the descriptor come from the
`FIT_MAP` base, `_dead` and `_ctrl` are declared at lines 120-121. -/
structure FitAdapt where
  _value : ℚ
  _objs : List ℚ
  _desc : List ℚ
  _dead : Bool
  _ctrl : List ℚ
  deriving DecidableEq

/-- Line 116, `bool dead() { return _dead; }`. -/
def FitAdapt.dead (self : FitAdapt) : Bool := self._dead

/-- Line 117, `std::vector<double> ctrl() { return _ctrl; }`. -/
def FitAdapt.ctrl (self : FitAdapt) : List ℚ := self._ctrl

/-- Modelled from the spec: `set_desc` belongs to the `FIT_MAP` base, which is not under
`src/`; it stores the descriptor of the individual. -/
def FitAdapt.set_desc (self : FitAdapt) (desc : List ℚ) : FitAdapt :=
  { self with _desc := desc }

/-- How a call of `eval` ends: it returns, an error of the simulator leaves it (there is no
handler in the class), or it reads a vector past its end. -/
inductive EvalResult where
  | returned (fit : FitAdapt)
  | thrown (err : SimError) (fit : FitAdapt)
  | undefined
  deriving DecidableEq

/-- Rounding of a number to the nearest integer, a tie going to the even one. -/
def round_even (y : ℚ) : Int :=
  if y - ⌊y⌋ < 1 / 2 then ⌊y⌋
  else if 1 / 2 < y - ⌊y⌋ then ⌊y⌋ + 1
  else if ⌊y⌋ % 2 = 0 then ⌊y⌋ else ⌊y⌋ + 1

/-- The conversion of a `double` to `float` in `desc[i] = v[i]` (lines 157-162): IEEE binary32,
round to nearest, ties to even.  A float has 24 significant bits and no exponent below
-126, so `x` is rounded to a multiple of `2 ^ (e - 23)` with `e = max (floor (log2 |x|)) (-126)`.
A magnitude above `flt_max` can leave the finite floats of the program, which the rationals
cannot show; the statements on the value of `to_float` are made for magnitudes up to
`flt_max`, where the result is a finite float (`to_float_range`). -/
def to_float (x : ℚ) : ℚ :=
  if x = 0 then 0
  else (round_even (x / 2 ^ (max (Int.log 2 |x|) (-126) - 23)) : ℚ)
        * 2 ^ (max (Int.log 2 |x|) (-126) - 23)

/-- The largest finite `float`, `(2^24 - 1) * 2^104`. -/
def flt_max : ℚ := (2 ^ 24 - 1) * 2 ^ 104

/-- The loop `for (size_t i = 0; i < 36; i++) _ctrl.push_back(indiv.data(i));`:
`n` iterations are left, `i` is the loop counter. -/
def push_genes (indiv : Indiv) : Nat → Nat → List ℚ → Option (List ℚ)
  | 0, _, ctrl => some ctrl
  | n + 1, i, ctrl =>
    match indiv.data i with
    | none => none
    | some x => push_genes indiv n (i + 1) (ctrl ++ [x])

/-- Lines 123-166, `FitAdapt::_eval`. -/
def FitAdapt._eval (self : FitAdapt) (indiv : Indiv) (simu : Simu) : EvalResult :=
  -- _ctrl.clear(); then the copy loop
  match push_genes indiv 36 0 [] with
  | none => EvalResult.undefined
  | some ctrl =>
    let self1 := { self with _ctrl := ctrl }
    -- clone, construct, run(5)
    match simu ctrl with
    | Except.error e => EvalResult.thrown e self1
    | Except.ok out =>
      -- this->_value = simu.covered_distance();
      let self2 := { self1 with _value := out.covered_distance }
      if self2._value < -1000 then
        EvalResult.returned
          (FitAdapt.set_desc { self2 with _dead := true, _value := -1000 } [0, 0, 0, 0, 0, 0])
      else
        let v := out.duty_cycle
        match v[0]?, v[1]?, v[2]?, v[3]?, v[4]?, v[5]? with
        | some v0, some v1, some v2, some v3, some v4, some v5 =>
          -- desc[i] = v[i]; each assignment narrows a double to a float
          EvalResult.returned
            (FitAdapt.set_desc self2
              [to_float v0, to_float v1, to_float v2, to_float v3, to_float v4, to_float v5])
        | _, _, _, _, _, _ => EvalResult.undefined

/-- Lines 97-105, `FitAdapt::eval`. -/
def FitAdapt.eval (self : FitAdapt) (indiv : Indiv) (simu : Simu) : EvalResult :=
  -- _objs.resize(2); std::fill(..., 0); _dead = false; _eval(indiv);
  FitAdapt._eval { self with _objs := [0, 0], _dead := false } indiv simu

/-! ## The archive

`ea::MapElites` comes from `modules/map_elites/map_elites.hpp`, which is not under `src/`; the
source only instantiates it (line 193) and configures it through `Params::ea`.  The grid below
follows sections 3 and 4.3 of the specification. -/

/-- Modelled from the spec: the bin of one descriptor component, missing from `src/` with the
rest of the archive: `floor(d * bins_per_axis)` clamped to `[0, bins_per_axis - 1]`. -/
def bin_index (bins : Nat) (d : ℚ) : Nat :=
  Int.toNat (max 0 (min ⌊d * (bins : ℚ)⌋ ((bins : Int) - 1)))

/-- Modelled from the spec: the descriptor-to-cell mapping of the missing archive; the cell
index is the tuple of the per-axis bin indices. -/
def cell_of (shape : List Nat) (desc : List ℚ) : List Nat :=
  List.zipWith bin_index shape desc

/-- Modelled from the spec: the Individual the missing archive stores:
genotype, fitness, descriptor, alive. -/
structure Individual where
  genotype : List ℚ
  fitness : ℚ
  descriptor : List ℚ
  alive : Bool
  deriving DecidableEq

/-- Modelled from the spec: the missing archive, a grid with `shape[i]` bins on axis `i` whose
cells, addressed by index tuples, each hold zero or one Individual. -/
structure Archive where
  shape : List Nat
  cells : List Nat → Option Individual

/-- Modelled from the spec: the answer of the missing `insert`,
`{accepted, replaced_existing}`. -/
structure InsertResult where
  accepted : Bool
  replaced_existing : Bool
  deriving DecidableEq

/-- Modelled from the spec: the missing archive as created at start, every cell empty. -/
def Archive.empty (shape : List Nat) : Archive := ⟨shape, fun _ => none⟩

/-- Modelled from the spec: step 1 of the missing `insert`, the target cell computed from the
descriptor of the individual. -/
def Archive.target (a : Archive) (x : Individual) : List Nat := cell_of a.shape x.descriptor

/-- Modelled from the spec: the missing archive with the individual `x` put in cell `c`. -/
def Archive.store (a : Archive) (c : List Nat) (x : Individual) : Archive :=
  ⟨a.shape, fun c' => if c' = c then some x else a.cells c'⟩

/-- Modelled from the spec: the missing `insert(individual)`: an empty cell takes the
individual; an occupied cell takes it when its fitness is strictly greater than the
occupant's, and keeps the occupant otherwise. -/
def Archive.insert (a : Archive) (x : Individual) : Archive × InsertResult :=
  match a.cells (a.target x) with
  | none => (a.store (a.target x) x, ⟨true, false⟩)
  | some occ =>
    if occ.fitness < x.fitness then (a.store (a.target x) x, ⟨true, true⟩)
    else (a, ⟨false, false⟩)

/-- Modelled from the spec: the UPDATING stage over the missing archive, the individuals
inserted one after the other. -/
def Archive.insert_all (a : Archive) (xs : List Individual) : Archive :=
  xs.foldl (fun acc x => (acc.insert x).1) a

/-! ## Sample data -/

/-- An individual with 36 genes, all at the domain value 0.5. -/
def indiv_half : Indiv := ⟨List.replicate 36 (1 / 2)⟩

/-- A fitness object as default-constructed. -/
def fit_fresh : FitAdapt := ⟨0, [], [0, 0, 0, 0, 0, 0], false, []⟩

/-- A fitness object left by an earlier evaluation that ended dead. -/
def fit_used : FitAdapt := ⟨-1000, [3, 4, 5], [0, 0, 0, 0, 0, 0], true, [9, 9]⟩

/-- The duty cycle of a tripod-like gait. -/
def duty_half : List ℚ := [1 / 2, 1 / 2, 1 / 2, 1 / 2, 1 / 2, 1 / 2]

/-- The `double` nearest to 0.1, `0x3FB999999999999A`. -/
def double_tenth : ℚ := 3602879701896397 / 36028797018963968

/-- The `float` nearest to 0.1, `0x3DCCCCCD`. -/
def float_tenth : ℚ := 13421773 / 134217728

/-- A duty cycle of one tenth on every limb, as doubles. -/
def duty_tenth : List ℚ :=
  [double_tenth, double_tenth, double_tenth, double_tenth, double_tenth, double_tenth]

/-- A simulator that reports the covered distance 0 and the duty cycle `duty_tenth`. -/
def simu_tenth : Simu := fun _ => Except.ok ⟨0, duty_tenth⟩

/-- A simulator that reports the covered distance -2000. -/
def simu_crash : Simu := fun _ => Except.ok ⟨-2000, duty_half⟩

/-- A simulator that reports the covered distance -1000 exactly. -/
def simu_edge : Simu := fun _ => Except.ok ⟨-1000, duty_half⟩

/-- A simulator that fails with an error. -/
def simu_fail : Simu := fun _ => Except.error ⟨1⟩

/-- A simulator whose duty-cycle vector has a component above 1. -/
def simu_wild : Simu := fun _ => Except.ok ⟨0, [2, 0, 0, 0, 0, 0]⟩

/-- Scenario A, first individual. -/
def indiv_a1 : Individual := ⟨[], 10, [99 / 100, 1 / 100], true⟩

/-- Scenario A, second individual. -/
def indiv_a2 : Individual := ⟨[], 15, [999 / 1000, 0], true⟩

/-- Scenario A, third individual. -/
def indiv_a3 : Individual := ⟨[], 5, [3 / 2, -1 / 2], true⟩

/-- Scenario A, the empty archive with five bins on each of two axes. -/
def arch_a0 : Archive := Archive.empty [5, 5]

/-- Scenario A, the archive after the first insertion. -/
def arch_a1 : Archive := (arch_a0.insert indiv_a1).1

/-- Scenario A, the archive after the second insertion. -/
def arch_a2 : Archive := (arch_a1.insert indiv_a2).1

/-- Scenario A, the archive after the third insertion. -/
def arch_a3 : Archive := (arch_a2.insert indiv_a3).1

/-! ## Lemmas on the rounding to `float` -/

theorem round_even_nonneg (y : ℚ) (h : 0 ≤ y) : 0 ≤ round_even y := by
  have hf : 0 ≤ ⌊y⌋ := Int.floor_nonneg.mpr h
  unfold round_even
  split_ifs <;> omega

theorem round_even_le (y : ℚ) (n : ℤ) (h : y ≤ n) : round_even y ≤ n := by
  have hf : ⌊y⌋ ≤ n := by
    have : (⌊y⌋ : ℚ) ≤ n := le_trans (Int.floor_le y) h
    exact_mod_cast this
  unfold round_even
  by_cases h1 : y - ⌊y⌋ < 1 / 2
  · rw [if_pos h1]
    exact hf
  · have hlt : (⌊y⌋ : ℚ) < y := by linarith
    have hfn : ⌊y⌋ < n := by
      have : (⌊y⌋ : ℚ) < n := lt_of_lt_of_le hlt h
      exact_mod_cast this
    rw [if_neg h1]
    split_ifs <;> omega

theorem round_even_ge (y : ℚ) (n : ℤ) (h : (n : ℚ) ≤ y) : n ≤ round_even y := by
  have hf : n ≤ ⌊y⌋ := Int.le_floor.mpr h
  unfold round_even
  split_ifs <;> omega

theorem log_two_eq (x : ℚ) (e : ℤ) (hlo : (2 : ℚ) ^ e ≤ x) (hhi : x < (2 : ℚ) ^ (e + 1)) :
    Int.log 2 x = e := by
  have hpos : 0 < x := lt_of_lt_of_le (by positivity) hlo
  have h1 : e ≤ Int.log 2 x :=
    (Int.zpow_le_iff_le_log (by norm_num) hpos).mp (by exact_mod_cast hlo)
  have h2 : Int.log 2 x < e + 1 :=
    (Int.lt_zpow_iff_log_lt (by norm_num) hpos).mp (by exact_mod_cast hhi)
  omega

/-- The value of `to_float` once the binade of the argument is known. -/
theorem to_float_eval (x : ℚ) (e n : ℤ) (hlo : (2 : ℚ) ^ e ≤ |x|)
    (hhi : |x| < (2 : ℚ) ^ (e + 1)) (he : -126 ≤ e)
    (hn : round_even (x / 2 ^ (e - 23)) = n) :
    to_float x = (n : ℚ) * 2 ^ (e - 23) := by
  have hpos : 0 < |x| := lt_of_lt_of_le (by positivity) hlo
  have hx : x ≠ 0 := abs_pos.mp hpos
  have hlog := log_two_eq |x| e hlo hhi
  unfold to_float
  rw [if_neg hx, hlog, max_eq_left he, hn]

/-- Rounding to `float` keeps a number of the unit interval inside it. -/
theorem to_float_unit (x : ℚ) (h0 : 0 ≤ x) (h1 : x ≤ 1) :
    0 ≤ to_float x ∧ to_float x ≤ 1 := by
  unfold to_float
  by_cases hx : x = 0
  · simp [hx]
  · rw [if_neg hx]
    have hpos : 0 < |x| := abs_pos.mpr hx
    have habs : |x| = x := abs_of_nonneg h0
    have hlog : Int.log 2 |x| < 1 :=
      (Int.lt_zpow_iff_log_lt (by norm_num) hpos).mp (by rw [habs]; norm_num; linarith)
    generalize hE : max (Int.log 2 |x|) (-126) = e
    have he : e ≤ 0 := by rw [← hE]; exact max_le (by omega) (by norm_num)
    have hq : (0 : ℚ) < 2 ^ (e - 23) := by positivity
    obtain ⟨k, hk⟩ : ∃ k : ℕ, (k : ℤ) = 23 - e := ⟨(23 - e).toNat, by omega⟩
    have hinv : (2 : ℚ) ^ (e - 23) = ((2 : ℚ) ^ k)⁻¹ := by
      rw [← zpow_natCast, hk, ← zpow_neg]
      congr 1
      omega
    have h2k : (0 : ℚ) < 2 ^ k := by positivity
    constructor
    · have hr : 0 ≤ round_even (x / 2 ^ (e - 23)) := round_even_nonneg _ (by positivity)
      have hr2 : (0 : ℚ) ≤ (round_even (x / 2 ^ (e - 23)) : ℚ) := by exact_mod_cast hr
      positivity
    · have hle : round_even (x / 2 ^ (e - 23)) ≤ ((2 ^ k : ℕ) : ℤ) := by
        apply round_even_le
        rw [hinv, div_inv_eq_mul]
        push_cast
        nlinarith
      have hle2 : (round_even (x / 2 ^ (e - 23)) : ℚ) ≤ (2 : ℚ) ^ k := by exact_mod_cast hle
      calc (round_even (x / 2 ^ (e - 23)) : ℚ) * 2 ^ (e - 23)
          ≤ 2 ^ k * 2 ^ (e - 23) := mul_le_mul_of_nonneg_right hle2 hq.le
        _ = 1 := by rw [hinv]; exact mul_inv_cancel₀ h2k.ne.symm

/-- Rounding to `float` keeps a number of the finite range inside it: the result is a finite
float, not an infinity. -/
theorem to_float_range (x : ℚ) (h : |x| ≤ flt_max) : |to_float x| ≤ flt_max := by
  unfold to_float
  by_cases hx : x = 0
  · rw [if_pos hx]
    norm_num [flt_max]
  · rw [if_neg hx]
    have hpos : 0 < |x| := abs_pos.mpr hx
    have hlt : |x| < 2 ^ (128 : ℤ) := lt_of_le_of_lt h (by norm_num [flt_max])
    have hlog : Int.log 2 |x| < 128 :=
      (Int.lt_zpow_iff_log_lt (by norm_num) hpos).mp (by exact_mod_cast hlt)
    generalize hE : max (Int.log 2 |x|) (-126) = e
    have he : e ≤ 127 := by rw [← hE]; exact max_le (by omega) (by norm_num)
    have hq : (0 : ℚ) < 2 ^ (e - 23) := by positivity
    obtain ⟨k, hk⟩ : ∃ k : ℕ, (k : ℤ) = 127 - e := ⟨(127 - e).toNat, by omega⟩
    have hsplit : (2 : ℚ) ^ (104 : ℕ) = 2 ^ k * 2 ^ (e - 23) := by
      rw [← zpow_natCast, ← zpow_natCast (2 : ℚ) k, hk, ← zpow_add₀ (by norm_num)]
      congr 1
      push_cast
      ring
    have hN : flt_max = (((2 ^ 24 - 1) * 2 ^ k : ℤ) : ℚ) * 2 ^ (e - 23) := by
      unfold flt_max
      rw [hsplit]
      push_cast
      ring
    have hdiv : |x / 2 ^ (e - 23)| ≤ (((2 ^ 24 - 1) * 2 ^ k : ℤ) : ℚ) := by
      rw [abs_div, abs_of_pos hq, div_le_iff₀ hq, ← hN]
      exact h
    obtain ⟨hlo, hhi⟩ := abs_le.mp hdiv
    have h1 : round_even (x / 2 ^ (e - 23)) ≤ (2 ^ 24 - 1) * 2 ^ k := round_even_le _ _ hhi
    have h2 : -((2 ^ 24 - 1) * 2 ^ k) ≤ round_even (x / 2 ^ (e - 23)) :=
      round_even_ge _ _ (by push_cast at hlo ⊢; exact hlo)
    have h3 : |(round_even (x / 2 ^ (e - 23)) : ℚ)| ≤ (((2 ^ 24 - 1) * 2 ^ k : ℤ) : ℚ) := by
      rw [abs_le]
      constructor
      · exact_mod_cast h2
      · exact_mod_cast h1
    rw [abs_mul, abs_of_pos hq, hN]
    exact mul_le_mul_of_nonneg_right h3 hq.le

theorem to_float_zero : to_float 0 = 0 := by
  simp [to_float]

theorem to_float_half : to_float (1 / 2) = 1 / 2 := by
  rw [to_float_eval (1 / 2) (-1) (2 ^ 23) (by rw [abs_of_pos (by norm_num)]; norm_num)
    (by rw [abs_of_pos (by norm_num)]; norm_num) (by norm_num)
    (by norm_num [round_even, Int.floor_eq_iff])]
  norm_num

theorem to_float_two : to_float 2 = 2 := by
  rw [to_float_eval 2 1 (2 ^ 23) (by rw [abs_of_pos (by norm_num)]; norm_num)
    (by rw [abs_of_pos (by norm_num)]; norm_num) (by norm_num)
    (by norm_num [round_even, Int.floor_eq_iff])]
  norm_num

/-- The double nearest to 0.1 is rounded to the float nearest to 0.1. -/
theorem to_float_tenth : to_float double_tenth = float_tenth := by
  unfold double_tenth float_tenth
  rw [to_float_eval _ (-4) 13421773 (by rw [abs_of_pos (by norm_num)]; norm_num)
    (by rw [abs_of_pos (by norm_num)]; norm_num) (by norm_num)
    (by norm_num [round_even, Int.floor_eq_iff])]
  norm_num

/-! ## Lemmas on the copy loop -/

theorem push_genes_eq (indiv : Indiv) (n : Nat) :
    ∀ (i : Nat) (ctrl : List ℚ), i + n ≤ indiv.params.length →
      push_genes indiv n i ctrl = some (ctrl ++ (indiv.params.drop i).take n) := by
  induction n with
  | zero => intro i ctrl _; simp [push_genes]
  | succ n ih =>
    intro i ctrl h
    have hi : i < indiv.params.length := by omega
    have hd : indiv.params.drop i = indiv.params[i] :: indiv.params.drop (i + 1) := by
      simp
    simp only [push_genes, Indiv.data, List.getElem?_eq_getElem hi]
    rw [ih (i + 1) _ (by omega), hd, List.take_succ_cons, List.append_assoc]
    rfl

theorem push_genes_all (indiv : Indiv) (h : indiv.size = 36) :
    push_genes indiv 36 0 [] = some indiv.params := by
  have h36 : indiv.params.length = 36 := h
  rw [push_genes_eq indiv 36 0 [] (by omega)]
  simp [← h36]

theorem push_genes_prefix (indiv : Indiv) (extra : List ℚ) (h : indiv.size = 36) :
    push_genes ⟨indiv.params ++ extra⟩ 36 0 [] = some indiv.params := by
  have h36 : indiv.params.length = 36 := h
  rw [push_genes_eq _ 36 0 [] (by simp; omega)]
  simp [← h36]

theorem indiv_half_size : indiv_half.size = 36 := by
  simp [indiv_half, Indiv.size]

/-! ## Lemmas on `eval` -/

theorem six_of_length {v : List ℚ} (h : 6 ≤ v.length) :
    ∃ v0 v1 v2 v3 v4 v5 rest, v = v0 :: v1 :: v2 :: v3 :: v4 :: v5 :: rest := by
  match v, h with
  | v0 :: v1 :: v2 :: v3 :: v4 :: v5 :: rest, _ => exact ⟨v0, v1, v2, v3, v4, v5, rest, rfl⟩

/-- An error of the simulator leaves `eval` with the object half updated. -/
theorem eval_thrown (self : FitAdapt) (indiv : Indiv) (simu : Simu) (e : SimError)
    (hsize : indiv.size = 36) (hsim : simu indiv.params = Except.error e) :
    self.eval indiv simu
      = EvalResult.thrown e ⟨self._value, [0, 0], self._desc, false, indiv.params⟩ := by
  simp only [FitAdapt.eval, FitAdapt._eval, push_genes_all indiv hsize, hsim]

/-- The branch of line 140. -/
theorem eval_dead (self : FitAdapt) (indiv : Indiv) (simu : Simu) (out : SimOutcome)
    (hsize : indiv.size = 36) (hsim : simu indiv.params = Except.ok out)
    (hlow : out.covered_distance < -1000) :
    self.eval indiv simu
      = EvalResult.returned ⟨-1000, [0, 0], [0, 0, 0, 0, 0, 0], true, indiv.params⟩ := by
  simp only [FitAdapt.eval, FitAdapt._eval, push_genes_all indiv hsize, hsim]
  rw [if_pos hlow]
  rfl

/-- The branch of line 153. -/
theorem eval_alive (self : FitAdapt) (indiv : Indiv) (simu : Simu) (out : SimOutcome)
    (hsize : indiv.size = 36) (hsim : simu indiv.params = Except.ok out)
    (hhigh : ¬ out.covered_distance < -1000) (hlen : 6 ≤ out.duty_cycle.length) :
    self.eval indiv simu
      = EvalResult.returned
          ⟨out.covered_distance, [0, 0], (out.duty_cycle.take 6).map to_float, false,
            indiv.params⟩ := by
  obtain ⟨v0, v1, v2, v3, v4, v5, rest, hv⟩ := six_of_length hlen
  simp only [FitAdapt.eval, FitAdapt._eval, push_genes_all indiv hsize, hsim]
  rw [if_neg hhigh, hv]
  simp [FitAdapt.set_desc]

/-- Whatever `eval` returns came out of one of the two branches. -/
theorem eval_returned_inv (self : FitAdapt) (indiv : Indiv) (simu : Simu) (fit : FitAdapt)
    (h : self.eval indiv simu = EvalResult.returned fit) :
    ∃ ctrl out, push_genes indiv 36 0 [] = some ctrl ∧ simu ctrl = Except.ok out ∧
      ((out.covered_distance < -1000 ∧ fit = ⟨-1000, [0, 0], [0, 0, 0, 0, 0, 0], true, ctrl⟩) ∨
       (¬ out.covered_distance < -1000 ∧ 6 ≤ out.duty_cycle.length ∧
          fit = ⟨out.covered_distance, [0, 0], (out.duty_cycle.take 6).map to_float, false,
            ctrl⟩)) := by
  unfold FitAdapt.eval FitAdapt._eval at h
  cases hp : push_genes indiv 36 0 [] with
  | none => rw [hp] at h; cases h
  | some ctrl =>
    rw [hp] at h
    cases hs : simu ctrl with
    | error e => simp only [hs] at h; cases h
    | ok out =>
      simp only [hs] at h
      refine ⟨ctrl, out, rfl, hs, ?_⟩
      by_cases hlow : out.covered_distance < -1000
      · rw [if_pos hlow] at h
        left
        refine ⟨hlow, ?_⟩
        cases h
        rfl
      · rw [if_neg hlow] at h
        right
        refine ⟨hlow, ?_⟩
        by_cases hlen : 6 ≤ out.duty_cycle.length
        · obtain ⟨v0, v1, v2, v3, v4, v5, rest, hv⟩ := six_of_length hlen
          refine ⟨hlen, ?_⟩
          rw [hv] at h ⊢
          simp [FitAdapt.set_desc] at h
          simp [← h]
        · exfalso
          have hl : out.duty_cycle.length < 6 := by omega
          have h5 : out.duty_cycle[5]? = none := List.getElem?_eq_none (by omega)
          rw [h5] at h
          split at h <;> simp_all

theorem eval_short (self : FitAdapt) (indiv : Indiv) (simu : Simu) (out : SimOutcome)
    (hsize : indiv.size = 36) (hsim : simu indiv.params = Except.ok out)
    (hhigh : ¬ out.covered_distance < -1000) (hlen : ¬ 6 ≤ out.duty_cycle.length) :
    self.eval indiv simu = EvalResult.undefined := by
  cases hr : self.eval indiv simu with
  | undefined => rfl
  | thrown e fit =>
    exfalso
    simp only [FitAdapt.eval, FitAdapt._eval, push_genes_all indiv hsize, hsim] at hr
    rw [if_neg hhigh] at hr
    split at hr <;> cases hr
  | returned fit =>
    exfalso
    obtain ⟨ctrl, out', hp, hs, hcase⟩ := eval_returned_inv self indiv simu fit hr
    rw [push_genes_all indiv hsize] at hp
    cases hp
    rw [hsim] at hs
    cases hs
    rcases hcase with ⟨hlow, _⟩ | ⟨_, hl, _⟩
    · exact hhigh hlow
    · exact hlen hl

/-! ## The evaluator: claims C1 to C5 -/

/-- C1. Death-suppression: whenever the simulator reports a covered distance strictly below
-1000, `eval` returns with `dead() = true`, fitness -1000 and a descriptor of exactly six
components, all 0, whatever duty cycle the outcome carries and whatever the object held. -/
theorem eval_dead_below_threshold (self : FitAdapt) (indiv : Indiv) (simu : Simu)
    (out : SimOutcome) (hsize : indiv.size = 36) (hsim : simu indiv.params = Except.ok out)
    (hlow : out.covered_distance < -1000) :
    ∃ fit, self.eval indiv simu = EvalResult.returned fit ∧ fit.dead = true ∧
      fit._value = -1000 ∧ fit._desc = [0, 0, 0, 0, 0, 0] ∧ fit._desc.length = 6 :=
  ⟨_, eval_dead self indiv simu out hsize hsim hlow, rfl, rfl, rfl, rfl⟩

/-- Scenario C: raw fitness -2000 gives alive = false, descriptor zero, fitness -1000. -/
theorem eval_dead_below_threshold_witness :
    indiv_half.size = 36 ∧ (-2000 : ℚ) < -1000 ∧
    ∃ fit, fit_fresh.eval indiv_half simu_crash = EvalResult.returned fit ∧ fit.dead = true ∧
      fit._value = -1000 ∧ fit._desc = [0, 0, 0, 0, 0, 0] ∧ fit._desc.length = 6 :=
  ⟨indiv_half_size, by norm_num,
    eval_dead_below_threshold fit_fresh indiv_half simu_crash ⟨-2000, duty_half⟩
      indiv_half_size rfl (by norm_num)⟩

/-- C2, as the claim states it, fails: the descriptor is a `std::vector<float>` and the duty
cycle a `std::vector<double>`, so component `i` of the descriptor is the duty-cycle component
rounded to `float`.  For the double nearest to 0.1 the descriptor holds the float nearest to
0.1, a different number. -/
theorem eval_alive_descriptor_not_exact :
    ∃ fit, fit_fresh.eval indiv_half simu_tenth = EvalResult.returned fit ∧
      fit.dead = false ∧ fit._desc[0]? = some float_tenth ∧
      duty_tenth[0]? = some double_tenth ∧ fit._desc[0]? ≠ duty_tenth[0]? := by
  refine ⟨_, eval_alive fit_fresh indiv_half simu_tenth ⟨0, duty_tenth⟩
    indiv_half_size rfl (by norm_num) (by simp [duty_tenth]), rfl, ?_, ?_, ?_⟩
  · simp [duty_tenth, to_float_tenth]
  · simp [duty_tenth]
  · simp only [duty_tenth, List.take, List.map, List.getElem?_cons_zero, to_float_tenth]
    intro h
    have h2 : float_tenth = double_tenth := Option.some.inj h
    norm_num [float_tenth, double_tenth] at h2

/-- C2, amended. When the covered distance is not below -1000 (-1000 itself included) and
the duty-cycle vector has at least six components, the first six within the range of
`float`, `eval` returns with `dead() = false`, the covered distance as fitness, and descriptor
component `i` equal to duty-cycle component `i` converted to `float`, for each of the six
limbs; the two are equal whenever the duty-cycle component is a `float` already. -/
theorem eval_alive_rounds_duty_cycle (self : FitAdapt) (indiv : Indiv) (simu : Simu)
    (out : SimOutcome) (hsize : indiv.size = 36) (hsim : simu indiv.params = Except.ok out)
    (hhigh : ¬ out.covered_distance < -1000) (hlen : 6 ≤ out.duty_cycle.length)
    (hrange : ∀ d ∈ out.duty_cycle.take 6, |d| ≤ flt_max) :
    ∃ fit, self.eval indiv simu = EvalResult.returned fit ∧ fit.dead = false ∧
      fit._value = out.covered_distance ∧ fit._desc.length = 6 ∧
      ∀ i, i < 6 → ∃ d, out.duty_cycle[i]? = some d ∧ fit._desc[i]? = some (to_float d) ∧
        |to_float d| ≤ flt_max ∧ (to_float d = d → fit._desc[i]? = out.duty_cycle[i]?) := by
  refine ⟨_, eval_alive self indiv simu out hsize hsim hhigh hlen, rfl, rfl, ?_, ?_⟩
  · simp [hlen]
  · intro i hi
    have hi2 : i < out.duty_cycle.length := by omega
    have hmem : out.duty_cycle[i] ∈ out.duty_cycle.take 6 := by
      have hget : (out.duty_cycle.take 6)[i]? = some out.duty_cycle[i] := by
        simp [List.getElem?_take, hi, hi2]
      exact List.getElem?_mem hget
    refine ⟨out.duty_cycle[i], List.getElem?_eq_getElem hi2, ?_,
      to_float_range _ (hrange _ hmem), ?_⟩
    · simp [List.getElem?_take, hi, hi2]
    · intro hfix
      simp [List.getElem?_take, hi, hi2, hfix]

/-- The boundary: a covered distance of exactly -1000 is alive; a duty cycle of one half, which
is a `float`, is stored as it is. -/
theorem eval_alive_rounds_duty_cycle_witness :
    indiv_half.size = 36 ∧ ¬ ((-1000 : ℚ) < -1000) ∧ 6 ≤ duty_half.length ∧
    (∀ d ∈ duty_half.take 6, |d| ≤ flt_max) ∧
    ∃ fit, fit_used.eval indiv_half simu_edge = EvalResult.returned fit ∧ fit.dead = false ∧
      fit._value = -1000 ∧ fit._desc.length = 6 ∧
      ∀ i, i < 6 → ∃ d, duty_half[i]? = some d ∧ fit._desc[i]? = some (to_float d) ∧
        |to_float d| ≤ flt_max ∧ (to_float d = d → fit._desc[i]? = duty_half[i]?) := by
  have hr : ∀ d ∈ duty_half.take 6, |d| ≤ flt_max := by
    intro d hd
    simp [duty_half] at hd
    subst hd
    rw [abs_of_pos (by norm_num)]
    norm_num [flt_max]
  exact ⟨indiv_half_size, by norm_num, by simp [duty_half], hr,
    eval_alive_rounds_duty_cycle fit_used indiv_half simu_edge ⟨-1000, duty_half⟩
      indiv_half_size rfl (by norm_num) (by simp [duty_half]) hr⟩

/-- C3, as the claim states it, fails: when the simulator raises an error, `eval` does not
return a dead individual; the error leaves `eval` and the object is left with
`_dead = false`. -/
theorem eval_simulator_error_escapes :
    fit_fresh.eval indiv_half simu_fail
        = EvalResult.thrown ⟨1⟩ ⟨0, [0, 0], [0, 0, 0, 0, 0, 0], false, indiv_half.params⟩ ∧
      ¬ ∃ fit, fit_fresh.eval indiv_half simu_fail = EvalResult.returned fit ∧
          fit.dead = true := by
  have h := eval_thrown fit_fresh indiv_half simu_fail ⟨1⟩ indiv_half_size rfl
  refine ⟨h, ?_⟩
  rintro ⟨fit, hfit, _⟩
  rw [h] at hfit
  cases hfit

/-- C3, amended. A failure that the simulator reports through its result, a covered distance
below -1000, is converted to death: `eval` returns a dead individual with fitness -1000 and
the zero descriptor.  An error raised by the simulator step is not handled: it leaves `eval`,
which then returns no individual. -/
theorem eval_failure_by_outcome_or_error (self : FitAdapt) (indiv : Indiv) (simu : Simu)
    (hsize : indiv.size = 36) :
    (∀ out, simu indiv.params = Except.ok out → out.covered_distance < -1000 →
        self.eval indiv simu
          = EvalResult.returned ⟨-1000, [0, 0], [0, 0, 0, 0, 0, 0], true, indiv.params⟩) ∧
    (∀ e, simu indiv.params = Except.error e →
        (∃ fit, self.eval indiv simu = EvalResult.thrown e fit ∧ fit.dead = false) ∧
        ∀ fit, self.eval indiv simu ≠ EvalResult.returned fit) := by
  refine ⟨fun out hsim hlow => eval_dead self indiv simu out hsize hsim hlow, ?_⟩
  intro e hsim
  have h := eval_thrown self indiv simu e hsize hsim
  refine ⟨⟨_, h, rfl⟩, ?_⟩
  intro fit hfit
  rw [h] at hfit
  cases hfit

/-- Both ways of failing, on the sample data. -/
theorem eval_failure_by_outcome_or_error_witness :
    indiv_half.size = 36 ∧
    fit_fresh.eval indiv_half simu_crash
      = EvalResult.returned ⟨-1000, [0, 0], [0, 0, 0, 0, 0, 0], true, indiv_half.params⟩ ∧
    (∃ fit, fit_fresh.eval indiv_half simu_fail = EvalResult.thrown ⟨1⟩ fit ∧
      fit.dead = false) :=
  ⟨indiv_half_size,
    (eval_failure_by_outcome_or_error fit_fresh indiv_half simu_crash indiv_half_size).1
      ⟨-2000, duty_half⟩ rfl (by norm_num),
    ((eval_failure_by_outcome_or_error fit_fresh indiv_half simu_fail indiv_half_size).2
      ⟨1⟩ rfl).1⟩

/-- C4. Evaluation determinism: when the simulator reports an outcome, two evaluations of the
same genotype end the same way whatever the two fitness objects held before (dead flag,
fitness, descriptor, controller vector, objectives), and when the outcome is below -1000 or
carries six duty-cycle components both return the same individual. -/
theorem eval_deterministic (self other : FitAdapt) (indiv : Indiv) (simu : Simu)
    (out : SimOutcome) (hsize : indiv.size = 36) (hsim : simu indiv.params = Except.ok out) :
    self.eval indiv simu = other.eval indiv simu ∧
    (out.covered_distance < -1000 ∨ 6 ≤ out.duty_cycle.length →
      ∃ fit, self.eval indiv simu = EvalResult.returned fit ∧
        other.eval indiv simu = EvalResult.returned fit) := by
  by_cases hlow : out.covered_distance < -1000
  · have h1 := eval_dead self indiv simu out hsize hsim hlow
    have h2 := eval_dead other indiv simu out hsize hsim hlow
    exact ⟨h1.trans h2.symm, fun _ => ⟨_, h1, h2⟩⟩
  · by_cases hlen : 6 ≤ out.duty_cycle.length
    · have h1 := eval_alive self indiv simu out hsize hsim hlow hlen
      have h2 := eval_alive other indiv simu out hsize hsim hlow hlen
      exact ⟨h1.trans h2.symm, fun _ => ⟨_, h1, h2⟩⟩
    · have h1 := eval_short self indiv simu out hsize hsim hlow hlen
      have h2 := eval_short other indiv simu out hsize hsim hlow hlen
      refine ⟨h1.trans h2.symm, fun h => ?_⟩
      rcases h with h | h
      · exact absurd h hlow
      · exact absurd h hlen

/-- A fresh object and one that was dead and held a controller vector give the same
individual. -/
theorem eval_deterministic_witness :
    indiv_half.size = 36 ∧
    fit_fresh.eval indiv_half simu_edge = fit_used.eval indiv_half simu_edge ∧
    ∃ fit, fit_fresh.eval indiv_half simu_edge = EvalResult.returned fit ∧
      fit_used.eval indiv_half simu_edge = EvalResult.returned fit :=
  ⟨indiv_half_size,
    (eval_deterministic fit_fresh fit_used indiv_half simu_edge ⟨-1000, duty_half⟩
      indiv_half_size rfl).1,
    (eval_deterministic fit_fresh fit_used indiv_half simu_edge ⟨-1000, duty_half⟩
      indiv_half_size rfl).2 (Or.inr (by simp [duty_half]))⟩

/-- C5, as the claim states it, fails: the alive branch stores the duty cycle the simulator
reports, rounded to `float` and not clamped, so a component 2 of the duty cycle is a
component 2 of the descriptor. -/
theorem eval_descriptor_outside_unit :
    ∃ fit, fit_fresh.eval indiv_half simu_wild = EvalResult.returned fit ∧
      ¬ ∀ d ∈ fit._desc, 0 ≤ d ∧ d ≤ 1 := by
  refine ⟨_, eval_alive fit_fresh indiv_half simu_wild ⟨0, [2, 0, 0, 0, 0, 0]⟩
    indiv_half_size rfl (by norm_num) (by simp), ?_⟩
  intro h
  have h2 := h 2 (by simp [to_float_two])
  norm_num at h2

/-- C5, amended. Every individual `eval` returns carries a descriptor of exactly six
components; for a dead individual they are all 0; for an alive one they lie in `[0,1]` when
the duty-cycle vector has at least six components and its first six lie in `[0,1]`. -/
theorem eval_descriptor_in_unit (self : FitAdapt) (indiv : Indiv) (simu : Simu)
    (out : SimOutcome) (hsize : indiv.size = 36) (hsim : simu indiv.params = Except.ok out) :
    (∀ fit, self.eval indiv simu = EvalResult.returned fit →
      fit._desc.length = 6 ∧ (fit.dead = true → fit._desc = [0, 0, 0, 0, 0, 0])) ∧
    (out.covered_distance < -1000 ∨
        (6 ≤ out.duty_cycle.length ∧ ∀ d ∈ out.duty_cycle.take 6, 0 ≤ d ∧ d ≤ 1) →
      ∃ fit, self.eval indiv simu = EvalResult.returned fit ∧ fit._desc.length = 6 ∧
        ∀ d ∈ fit._desc, 0 ≤ d ∧ d ≤ 1) := by
  constructor
  · intro fit hfit
    obtain ⟨ctrl, out', _, _, hcase⟩ := eval_returned_inv self indiv simu fit hfit
    rcases hcase with ⟨_, hf⟩ | ⟨_, hl, hf⟩
    · rw [hf]
      exact ⟨rfl, fun _ => rfl⟩
    · rw [hf]
      refine ⟨by simp [hl], fun hd => ?_⟩
      simp [FitAdapt.dead] at hd
  · intro hduty
    by_cases hlow : out.covered_distance < -1000
    · refine ⟨_, eval_dead self indiv simu out hsize hsim hlow, rfl, ?_⟩
      intro d hd
      simp at hd
      subst hd
      norm_num
    · rcases hduty with h | ⟨hlen, hunit⟩
      · exact absurd h hlow
      · refine ⟨_, eval_alive self indiv simu out hsize hsim hlow hlen, ?_, ?_⟩
        · simp [hlen]
        · intro d hd
          obtain ⟨x, hx, rfl⟩ := List.mem_map.mp hd
          exact to_float_unit x (hunit x hx).1 (hunit x hx).2

/-- A duty cycle of one half on every limb stays inside the unit interval. -/
theorem eval_descriptor_in_unit_witness :
    indiv_half.size = 36 ∧
    ∃ fit, fit_fresh.eval indiv_half simu_edge = EvalResult.returned fit ∧
      fit._desc.length = 6 ∧ ∀ d ∈ fit._desc, 0 ≤ d ∧ d ≤ 1 :=
  ⟨indiv_half_size,
    (eval_descriptor_in_unit fit_fresh indiv_half simu_edge ⟨-1000, duty_half⟩
      indiv_half_size rfl).2
      (Or.inr ⟨by simp [duty_half], by
        intro d hd
        simp [duty_half] at hd
        subst hd
        norm_num⟩)⟩

/-! ## Lemmas on the grid -/

theorem bin_index_lt (bins : Nat) (d : ℚ) (h : 0 < bins) : bin_index bins d < bins := by
  unfold bin_index
  omega

theorem cell_of_get (shape : List Nat) (desc : List ℚ) (i b : Nat) (d : ℚ)
    (hb : shape[i]? = some b) (hd : desc[i]? = some d) :
    (cell_of shape desc)[i]? = some (bin_index b d) := by
  simp [cell_of, List.getElem?_zipWith, hb, hd]

theorem insert_fst_cells (a : Archive) (x : Individual) (c : List Nat) :
    (a.insert x).1.cells c =
      if c = a.target x then
        (match a.cells (a.target x) with
          | none => some x
          | some occ => if occ.fitness < x.fitness then some x else some occ)
      else a.cells c := by
  unfold Archive.insert
  cases hocc : a.cells (a.target x) with
  | none =>
    by_cases hc : c = a.target x
    · simp [Archive.store, hc]
    · simp [Archive.store, hc]
  | some occ =>
    by_cases hlt : occ.fitness < x.fitness
    · by_cases hc : c = a.target x
      · simp [Archive.store, hc, hlt]
      · simp [Archive.store, hc, hlt]
    · by_cases hc : c = a.target x
      · simp [hc, hlt, hocc]
      · simp [hc, hlt]

theorem insert_mono (a : Archive) (x : Individual) (c : List Nat) (occ : Individual)
    (h : a.cells c = some occ) :
    ∃ occ', (a.insert x).1.cells c = some occ' ∧ occ.fitness ≤ occ'.fitness := by
  rw [insert_fst_cells]
  by_cases hc : c = a.target x
  · rw [if_pos hc, ← hc, h]
    by_cases hlt : occ.fitness < x.fitness
    · exact ⟨x, by simp [hlt], le_of_lt hlt⟩
    · exact ⟨occ, by simp [hlt], le_refl _⟩
  · rw [if_neg hc]
    exact ⟨occ, h, le_refl _⟩

theorem insert_all_mono (xs : List Individual) :
    ∀ (a : Archive) (c : List Nat) (occ : Individual), a.cells c = some occ →
      ∃ occ', (a.insert_all xs).cells c = some occ' ∧ occ.fitness ≤ occ'.fitness := by
  induction xs with
  | nil => intro a c occ h; exact ⟨occ, h, le_refl _⟩
  | cons x xs ih =>
    intro a c occ h
    obtain ⟨occ1, h1, hle1⟩ := insert_mono a x c occ h
    obtain ⟨occ2, h2, hle2⟩ := ih (a.insert x).1 c occ1 h1
    exact ⟨occ2, h2, le_trans hle1 hle2⟩

theorem insert_fst_shape (a : Archive) (x : Individual) : (a.insert x).1.shape = a.shape := by
  unfold Archive.insert
  cases a.cells (a.target x) with
  | none => rfl
  | some occ =>
    by_cases hlt : occ.fitness < x.fitness
    · simp [hlt, Archive.store]
    · simp [hlt]

theorem target_a1 (a : Archive) (h : a.shape = [5, 5]) : a.target indiv_a1 = [4, 0] := by
  norm_num [Archive.target, h, indiv_a1, cell_of, bin_index, Int.floor_eq_iff]
  rfl

theorem target_a2 (a : Archive) (h : a.shape = [5, 5]) : a.target indiv_a2 = [4, 0] := by
  norm_num [Archive.target, h, indiv_a2, cell_of, bin_index, Int.floor_eq_iff]
  rfl

theorem target_a3 (a : Archive) (h : a.shape = [5, 5]) : a.target indiv_a3 = [4, 0] := by
  norm_num [Archive.target, h, indiv_a3, cell_of, bin_index, Int.floor_eq_iff]
  rfl

/-! ## The archive: claims C6 and C7 -/

/-- C6. Archive replacement rule: an insertion into an empty cell stores the individual; an
insertion into an occupied cell replaces the occupant exactly when the new fitness is
strictly greater (equal fitness keeps the incumbent); no other cell changes; and over any
sequence of insertions the fitness of the occupant of a cell never decreases. -/
theorem archive_replacement_rule (a : Archive) (x : Individual) (xs : List Individual)
    (c : List Nat) :
    (a.cells (a.target x) = none →
      (a.insert x).1.cells (a.target x) = some x ∧ (a.insert x).2 = ⟨true, false⟩) ∧
    (∀ occ, a.cells (a.target x) = some occ →
      ((a.insert x).2.accepted = true ↔ occ.fitness < x.fitness) ∧
      (a.insert x).2.replaced_existing = (a.insert x).2.accepted ∧
      (a.insert x).1.cells (a.target x) = some (if occ.fitness < x.fitness then x else occ) ∧
      (occ.fitness = x.fitness → (a.insert x).1.cells (a.target x) = some occ)) ∧
    (c ≠ a.target x → (a.insert x).1.cells c = a.cells c) ∧
    (∀ occ, a.cells c = some occ →
      ∃ occ', (a.insert_all xs).cells c = some occ' ∧ occ.fitness ≤ occ'.fitness) := by
  refine ⟨?_, ?_, ?_, ?_⟩
  · intro hnone
    refine ⟨by simp [insert_fst_cells, hnone], ?_⟩
    simp [Archive.insert, hnone]
  · intro occ hocc
    by_cases hlt : occ.fitness < x.fitness
    · refine ⟨?_, ?_, ?_, ?_⟩
      · simp [Archive.insert, hocc, hlt]
      · simp [Archive.insert, hocc, hlt]
      · simp [insert_fst_cells, hocc, hlt]
      · intro heq
        exact absurd hlt (by rw [heq]; exact lt_irrefl _)
    · refine ⟨?_, ?_, ?_, ?_⟩
      · simp [Archive.insert, hocc, hlt]
      · simp [Archive.insert, hocc, hlt]
      · simp [insert_fst_cells, hocc, hlt]
      · intro _
        simp [insert_fst_cells, hocc, hlt]
  · intro hc
    simp [insert_fst_cells, hc]
  · exact fun occ h => insert_all_mono xs a c occ h

/-- Scenario A, five bins on two axes: fitness 10 at (0.99, 0.01) takes the empty cell (4,0);
fitness 15 at (0.999, 0.0) replaces it; fitness 5 at (1.5, -0.5) is rejected and the cell
keeps fitness 15; over the three insertions the fitness in the cell did not decrease. -/
theorem archive_replacement_rule_witness :
    (arch_a1.cells [4, 0] = some indiv_a1 ∧ (arch_a0.insert indiv_a1).2 = ⟨true, false⟩) ∧
    (arch_a2.cells [4, 0] = some indiv_a2 ∧ (arch_a1.insert indiv_a2).2 = ⟨true, true⟩) ∧
    (arch_a3.cells [4, 0] = some indiv_a2 ∧ (arch_a2.insert indiv_a3).2 = ⟨false, false⟩) ∧
    arch_a0.insert_all [indiv_a1, indiv_a2, indiv_a3] = arch_a3 ∧
    ∃ occ, (arch_a1.insert_all [indiv_a2, indiv_a3]).cells [4, 0] = some occ ∧
      indiv_a1.fitness ≤ occ.fitness := by
  have s0 : arch_a0.shape = [5, 5] := rfl
  have s1 : arch_a1.shape = [5, 5] := by rw [arch_a1, insert_fst_shape, s0]
  have s2 : arch_a2.shape = [5, 5] := by rw [arch_a2, insert_fst_shape, s1]
  have h1 := (archive_replacement_rule arch_a0 indiv_a1 [] [4, 0]).1 rfl
  rw [target_a1 arch_a0 s0] at h1
  have h2 := (archive_replacement_rule arch_a1 indiv_a2 [] [4, 0]).2.1 indiv_a1
    (by rw [target_a2 arch_a1 s1]; exact h1.1)
  rw [target_a2 arch_a1 s1] at h2
  have lt2 : indiv_a1.fitness < indiv_a2.fitness := by norm_num [indiv_a1, indiv_a2]
  have c2 : arch_a2.cells [4, 0] = some indiv_a2 := by
    have := h2.2.2.1
    rwa [if_pos lt2] at this
  have acc2 : (arch_a1.insert indiv_a2).2.accepted = true := h2.1.2 lt2
  have rep2 : (arch_a1.insert indiv_a2).2.replaced_existing = true := by rw [h2.2.1, acc2]
  have h3 := (archive_replacement_rule arch_a2 indiv_a3 [] [4, 0]).2.1 indiv_a2
    (by rw [target_a3 arch_a2 s2]; exact c2)
  rw [target_a3 arch_a2 s2] at h3
  have lt3 : ¬ indiv_a2.fitness < indiv_a3.fitness := by norm_num [indiv_a2, indiv_a3]
  have c3 : arch_a3.cells [4, 0] = some indiv_a2 := by
    have := h3.2.2.1
    rwa [if_neg lt3] at this
  have acc3 : (arch_a2.insert indiv_a3).2.accepted = false := by
    cases hacc : (arch_a2.insert indiv_a3).2.accepted with
    | false => rfl
    | true => exact absurd (h3.1.1 hacc) lt3
  have rep3 : (arch_a2.insert indiv_a3).2.replaced_existing = false := by rw [h3.2.1, acc3]
  refine ⟨h1, ⟨c2, ?_⟩, ⟨c3, ?_⟩, rfl, ?_⟩
  · cases hr : (arch_a1.insert indiv_a2).2 with
    | mk acc rep => rw [hr] at acc2 rep2; simp at acc2 rep2; rw [acc2, rep2]
  · cases hr : (arch_a2.insert indiv_a3).2 with
    | mk acc rep => rw [hr] at acc3 rep3; simp at acc3 rep3; rw [acc3, rep3]
  · exact (archive_replacement_rule arch_a1 indiv_a2 [indiv_a2, indiv_a3] [4, 0]).2.2.2
      indiv_a1 h1.1

/-- C7. Partition totality: for a descriptor with one component per axis, components outside
`[0,1]` included, the cell index has one coordinate per axis, coordinate `i` is
`floor(d_i * bins_i)` clamped into `[0, bins_i - 1]` and so lies inside the axis, and the
target cell of an insertion is that of the descriptor alone. -/
theorem cell_of_total (shape : List Nat) (desc : List ℚ) (hbins : ∀ b ∈ shape, 0 < b)
    (hlen : desc.length = shape.length) :
    (cell_of shape desc).length = shape.length ∧
    (∀ (i b : Nat) (d : ℚ), shape[i]? = some b → desc[i]? = some d →
      (cell_of shape desc)[i]?
          = some (Int.toNat (max 0 (min ⌊d * (b : ℚ)⌋ ((b : Int) - 1)))) ∧
        Int.toNat (max 0 (min ⌊d * (b : ℚ)⌋ ((b : Int) - 1))) < b) ∧
    (∀ i, i < shape.length → ∃ k b, (cell_of shape desc)[i]? = some k ∧
      shape[i]? = some b ∧ k < b) ∧
    (∀ (a : Archive) (x y : Individual), a.shape = shape → x.descriptor = desc →
      y.descriptor = desc → a.target x = cell_of shape desc ∧ a.target y = a.target x) := by
  refine ⟨by simp [cell_of, hlen], ?_, ?_, ?_⟩
  · intro i b d hb hd
    have hpos : 0 < b := hbins b (List.getElem?_mem hb)
    exact ⟨cell_of_get shape desc i b d hb hd, bin_index_lt b d hpos⟩
  · intro i hi
    have hi2 : i < desc.length := by omega
    have hb : shape[i]? = some shape[i] := List.getElem?_eq_getElem hi
    have hd : desc[i]? = some desc[i] := List.getElem?_eq_getElem hi2
    have hpos : 0 < shape[i] := hbins _ (List.getElem_mem hi)
    exact ⟨bin_index shape[i] desc[i], shape[i], cell_of_get shape desc i _ _ hb hd, hb,
      bin_index_lt _ _ hpos⟩
  · intro a x y hs hx hy
    simp [Archive.target, hs, hx, hy]

/-- The configured grid, five bins on six axes, with a descriptor that leaves `[0,1]` on both
sides: 1.5 goes to the last bin, -0.5 to the first. -/
theorem cell_of_total_witness :
    cell_of Params.ea.behav_shape [3 / 2, -1 / 2, 0, 1, 1 / 5, 19 / 100] = [4, 0, 0, 4, 1, 0] ∧
    (cell_of Params.ea.behav_shape [3 / 2, -1 / 2, 0, 1, 1 / 5, 19 / 100]).length
      = Params.ea.behav_shape.length ∧
    ∀ i, i < Params.ea.behav_shape.length → ∃ k b,
      (cell_of Params.ea.behav_shape [3 / 2, -1 / 2, 0, 1, 1 / 5, 19 / 100])[i]? = some k ∧
      Params.ea.behav_shape[i]? = some b ∧ k < b := by
  have h := cell_of_total Params.ea.behav_shape [3 / 2, -1 / 2, 0, 1, 1 / 5, 19 / 100]
    (by simp [Params.ea.behav_shape]) (by simp [Params.ea.behav_shape])
  refine ⟨?_, h.1, h.2.2.1⟩
  norm_num [Params.ea.behav_shape, cell_of, bin_index, Int.floor_eq_iff]
  rfl

/-! ## Configuration and bookkeeping: claims C8 to C10 -/

/-- C8. Configuration consistency: `behav_dim` is 6, `behav_shape` has `behav_dim` entries, each
5, so the grid has 5^6 = 15625 cells; and the descriptor handed to `set_desc` has `behav_dim`
components in the dead and in the alive branch, so every returned individual has a
descriptor of the archive's dimension. -/
theorem config_consistent (self : FitAdapt) (indiv : Indiv) (simu : Simu) (out : SimOutcome)
    (hsize : indiv.size = 36) (hsim : simu indiv.params = Except.ok out) :
    Params.ea.behav_dim = 6 ∧ Params.ea.behav_shape.length = Params.ea.behav_dim ∧
    (∀ b ∈ Params.ea.behav_shape, b = 5) ∧ Params.ea.behav_shape.prod = 5 ^ 6 ∧
    Params.ea.behav_shape.prod = 15625 ∧
    (out.covered_distance < -1000 →
      ∃ fit, self.eval indiv simu = EvalResult.returned fit ∧
        fit._desc.length = Params.ea.behav_dim) ∧
    (¬ out.covered_distance < -1000 → 6 ≤ out.duty_cycle.length →
      ∃ fit, self.eval indiv simu = EvalResult.returned fit ∧
        fit._desc.length = Params.ea.behav_dim) ∧
    (∀ fit, self.eval indiv simu = EvalResult.returned fit →
      fit._desc.length = Params.ea.behav_dim) := by
  refine ⟨rfl, rfl, by simp [Params.ea.behav_shape], by decide, by decide, ?_, ?_, ?_⟩
  · intro hlow
    exact ⟨_, eval_dead self indiv simu out hsize hsim hlow, rfl⟩
  · intro hhigh hlen
    refine ⟨_, eval_alive self indiv simu out hsize hsim hhigh hlen, ?_⟩
    simp [Params.ea.behav_dim, hlen]
  · intro fit hfit
    obtain ⟨ctrl, out', _, _, hcase⟩ := eval_returned_inv self indiv simu fit hfit
    rcases hcase with ⟨_, hf⟩ | ⟨_, hl, hf⟩
    · rw [hf]; rfl
    · rw [hf]; simp [Params.ea.behav_dim, hl]

/-- Both branches on the sample data. -/
theorem config_consistent_witness :
    indiv_half.size = 36 ∧
    (∃ fit, fit_fresh.eval indiv_half simu_crash = EvalResult.returned fit ∧
      fit._desc.length = Params.ea.behav_dim) ∧
    (∃ fit, fit_fresh.eval indiv_half simu_edge = EvalResult.returned fit ∧
      fit._desc.length = Params.ea.behav_dim) :=
  ⟨indiv_half_size,
    (config_consistent fit_fresh indiv_half simu_crash ⟨-2000, duty_half⟩
      indiv_half_size rfl).2.2.2.2.2.1 (by norm_num),
    (config_consistent fit_fresh indiv_half simu_edge ⟨-1000, duty_half⟩
      indiv_half_size rfl).2.2.2.2.2.2.1 (by norm_num) (by simp [duty_half])⟩

/-- C9. Genotype decoding is a pass-through: for an individual of 36 genes the copy loop reads
`data(0)` to `data(35)` and nothing else, and every individual `eval` returns has a
controller vector of exactly 36 entries with `ctrl()[i] = data(i)`, whatever the object's
controller vector held before. -/
theorem eval_ctrl_is_genotype (self : FitAdapt) (indiv : Indiv) (simu : Simu)
    (hsize : indiv.size = 36) :
    push_genes indiv 36 0 self._ctrl = some (self._ctrl ++ indiv.params) ∧
    push_genes indiv 36 0 [] = some indiv.params ∧
    (∀ extra, self.eval ⟨indiv.params ++ extra⟩ simu = self.eval indiv simu) ∧
    (∀ out, simu indiv.params = Except.ok out →
      out.covered_distance < -1000 ∨ 6 ≤ out.duty_cycle.length →
      ∃ fit, self.eval indiv simu = EvalResult.returned fit) ∧
    (∀ fit, self.eval indiv simu = EvalResult.returned fit →
      fit.ctrl = indiv.params ∧ fit.ctrl.length = 36 ∧
      ∀ i, i < 36 → fit.ctrl[i]? = indiv.data i ∧ (indiv.data i).isSome = true) := by
  have h36 : indiv.params.length = 36 := hsize
  refine ⟨?_, push_genes_all indiv hsize, ?_, ?_, ?_⟩
  · rw [push_genes_eq indiv 36 0 _ (by omega)]
    simp [← h36]
  · intro extra
    simp only [FitAdapt.eval, FitAdapt._eval, push_genes_prefix indiv extra hsize,
      push_genes_all indiv hsize]
  · intro out hsim hok
    by_cases hlow : out.covered_distance < -1000
    · exact ⟨_, eval_dead self indiv simu out hsize hsim hlow⟩
    · rcases hok with h | hlen
      · exact absurd h hlow
      · exact ⟨_, eval_alive self indiv simu out hsize hsim hlow hlen⟩
  · intro fit hfit
    obtain ⟨ctrl, out, hp, _, hcase⟩ := eval_returned_inv self indiv simu fit hfit
    rw [push_genes_all indiv hsize] at hp
    cases hp
    have hc : fit.ctrl = indiv.params := by
      rcases hcase with ⟨_, hf⟩ | ⟨_, _, hf⟩ <;> rw [hf] <;> rfl
    refine ⟨hc, by rw [hc, h36], ?_⟩
    intro i hi
    have hi2 : i < indiv.params.length := by omega
    rw [hc]
    simp [Indiv.data, List.getElem?_eq_getElem hi2]

/-- An object that held the controller vector `[9, 9]` ends with the 36 genes alone. -/
theorem eval_ctrl_is_genotype_witness :
    indiv_half.size = 36 ∧
    (∃ fit, fit_used.eval indiv_half simu_edge = EvalResult.returned fit) ∧
    (∀ fit, fit_used.eval indiv_half simu_edge = EvalResult.returned fit →
      fit.ctrl = indiv_half.params ∧ fit.ctrl.length = 36 ∧
      ∀ i, i < 36 → fit.ctrl[i]? = indiv_half.data i ∧ (indiv_half.data i).isSome = true) :=
  ⟨indiv_half_size,
    (eval_ctrl_is_genotype fit_used indiv_half simu_edge indiv_half_size).2.2.2.1
      ⟨-1000, duty_half⟩ rfl (Or.inr (by simp [duty_half])),
    (eval_ctrl_is_genotype fit_used indiv_half simu_edge indiv_half_size).2.2.2.2⟩

/-- C10, as the claim states it, fails at the boundary: an individual whose covered distance
is exactly -1000 is alive with fitness -1000, so the sentinel fitness of a dead individual
is not lower than the fitness of every alive one. -/
theorem dead_sentinel_not_below_alive :
    ∃ d a, fit_fresh.eval indiv_half simu_crash = EvalResult.returned d ∧ d.dead = true ∧
      fit_fresh.eval indiv_half simu_edge = EvalResult.returned a ∧ a.dead = false ∧
      ¬ d._value < a._value := by
  refine ⟨_, _, eval_dead fit_fresh indiv_half simu_crash ⟨-2000, duty_half⟩
      indiv_half_size rfl (by norm_num), rfl,
    eval_alive fit_fresh indiv_half simu_edge ⟨-1000, duty_half⟩
      indiv_half_size rfl (by norm_num) (by simp [duty_half]), rfl, ?_⟩
  norm_num

/-- C10, amended. The fitness `eval` stores is `max(covered distance, -1000)`, so it is at
least -1000; the individual is dead exactly when the covered distance is below -1000; and
the sentinel fitness of a dead individual is lower than or equal to the fitness of every
alive individual. -/
theorem eval_fitness_floor (self : FitAdapt) (indiv : Indiv) (simu : Simu) (out : SimOutcome)
    (hsize : indiv.size = 36) (hsim : simu indiv.params = Except.ok out)
    (hok : out.covered_distance < -1000 ∨ 6 ≤ out.duty_cycle.length) :
    ∃ fit, self.eval indiv simu = EvalResult.returned fit ∧
      fit._value = max out.covered_distance (-1000) ∧ -1000 ≤ fit._value ∧
      (fit.dead = true ↔ out.covered_distance < -1000) ∧
      ∀ (self' : FitAdapt) (indiv' : Indiv) (simu' : Simu) (fit' : FitAdapt),
        self'.eval indiv' simu' = EvalResult.returned fit' →
        (-1000 ≤ fit'._value) ∧
        (fit.dead = true → fit'.dead = false →
          fit._value = -1000 ∧ fit._value ≤ fit'._value) := by
  have hfloor : ∀ (self' : FitAdapt) (indiv' : Indiv) (simu' : Simu) (fit' : FitAdapt),
      self'.eval indiv' simu' = EvalResult.returned fit' → -1000 ≤ fit'._value := by
    intro self' indiv' simu' fit' h
    obtain ⟨ctrl, out', _, _, hcase⟩ := eval_returned_inv self' indiv' simu' fit' h
    rcases hcase with ⟨_, hf⟩ | ⟨hhigh, _, hf⟩
    · rw [hf]
    · rw [hf]; exact not_lt.mp hhigh
  by_cases hlow : out.covered_distance < -1000
  · refine ⟨_, eval_dead self indiv simu out hsize hsim hlow, ?_, le_refl _, ?_, ?_⟩
    · exact (max_eq_right (le_of_lt hlow)).symm
    · simp [FitAdapt.dead, hlow]
    · intro self' indiv' simu' fit' h
      exact ⟨hfloor _ _ _ _ h, fun _ _ => ⟨rfl, hfloor _ _ _ _ h⟩⟩
  · rcases hok with h | hlen
    · exact absurd h hlow
    · refine ⟨_, eval_alive self indiv simu out hsize hsim hlow hlen, ?_, not_lt.mp hlow,
        ?_, ?_⟩
      · exact (max_eq_left (not_lt.mp hlow)).symm
      · simp [FitAdapt.dead, hlow]
      · intro self' indiv' simu' fit' h
        refine ⟨hfloor _ _ _ _ h, fun hd _ => ?_⟩
        simp [FitAdapt.dead] at hd

/-- A dead individual against the alive one at the boundary: both have fitness -1000. -/
theorem eval_fitness_floor_witness :
    indiv_half.size = 36 ∧
    ∃ fit, fit_fresh.eval indiv_half simu_crash = EvalResult.returned fit ∧
      fit._value = max (-2000) (-1000) ∧ -1000 ≤ fit._value ∧
      (fit.dead = true ↔ (-2000 : ℚ) < -1000) ∧
      ∀ (self' : FitAdapt) (indiv' : Indiv) (simu' : Simu) (fit' : FitAdapt),
        self'.eval indiv' simu' = EvalResult.returned fit' →
        (-1000 ≤ fit'._value) ∧
        (fit.dead = true → fit'.dead = false →
          fit._value = -1000 ∧ fit._value ≤ fit'._value) :=
  ⟨indiv_half_size,
    eval_fitness_floor fit_fresh indiv_half simu_crash ⟨-2000, duty_half⟩
      indiv_half_size rfl (Or.inl (by norm_num))⟩

end HexaDuty
